import Mathlib

/-!
Verification of the configuration aggregation library (rocket-config).

The development embeds the core of `src/build/index.js`: the JSON-like value
model, the standalone path-`get` function, `deepFreeze`, the priority-right
deep merge (modelled from the spec, since the merger is an external
dependency), and the `Config` class lifecycle (`loadConfigs` single-flight,
`addSource` / `removeSource`, the global singleton) as an explicit state
machine with an environment supplying file reads and format decoders.
-/

namespace RocketConfig

/-- JavaScript-style data value as produced by the decoders and the merger.
Composite nodes (`vobj`, `varr`) carry the frozen bit that models
`Object.isFrozen`; decoders and the merger produce unfrozen nodes, and
`deepFreeze` sets the bit recursively. -/
inductive JVal : Type where
  | vnull : JVal
  | vbool : Bool → JVal
  | vnum  : Int → JVal
  | vstr  : String → JVal
  | varr  : Bool → List JVal → JVal
  | vobj  : Bool → List (String × JVal) → JVal
deriving Repr

namespace JVal

mutual

/-- Boolean equality on values, honouring the frozen bit. -/
def beqJ : JVal → JVal → Bool
  | .vnull, .vnull => true
  | .vbool a, .vbool b => a == b
  | .vnum a, .vnum b => a == b
  | .vstr a, .vstr b => a == b
  | .varr fa la, .varr fb lb => fa == fb && beqL la lb
  | .vobj fa la, .vobj fb lb => fa == fb && beqKvs la lb
  | _, _ => false

/-- Boolean equality on value lists. -/
def beqL : List JVal → List JVal → Bool
  | [], [] => true
  | a :: as_, b :: bs => beqJ a b && beqL as_ bs
  | _, _ => false

/-- Boolean equality on key-value lists. -/
def beqKvs : List (String × JVal) → List (String × JVal) → Bool
  | [], [] => true
  | (ka, va) :: as_, (kb, vb) :: bs => ka == kb && beqJ va vb && beqKvs as_ bs
  | _, _ => false

end

mutual

/-- Reflexivity of `beqJ`. -/
theorem beqJ_refl : (a : JVal) → beqJ a a = true
  | .vnull => rfl
  | .vbool b => by simp [beqJ]
  | .vnum n => by simp [beqJ]
  | .vstr s => by simp [beqJ]
  | .varr f l => by simp [beqJ, beqL_refl l]
  | .vobj f l => by simp [beqJ, beqKvs_refl l]

/-- Reflexivity of `beqL`. -/
theorem beqL_refl : (l : List JVal) → beqL l l = true
  | [] => rfl
  | a :: rest => by simp [beqL, beqJ_refl a, beqL_refl rest]

/-- Reflexivity of `beqKvs`. -/
theorem beqKvs_refl : (l : List (String × JVal)) → beqKvs l l = true
  | [] => rfl
  | (k, v) :: rest => by simp [beqKvs, beqJ_refl v, beqKvs_refl rest]

end

end JVal

open JVal

/-- First-match lookup in a key-value list, as JavaScript property access on a
plain object (object keys are unique, so first match is the match). -/
def findA : List (String × JVal) → String → Option JVal
  | [], _ => none
  | (k, v) :: rest, key => if k = key then some v else findA rest key

/-- Decimal value of a digit run; `none` when a non-digit appears. -/
def digitsValAux : List Char → Nat → Option Nat
  | [], acc => some acc
  | c :: rest, acc =>
      if c.isDigit then digitsValAux rest (acc * 10 + (c.toNat - 48))
      else none

/-- Canonical numeric index: JavaScript array indexing `arr[k]` hits an
element only when `k` is the canonical decimal form of an index — digits
only, no leading zero except `"0"` itself. -/
def natKey (k : String) : Option Nat :=
  match k.toList with
  | [] => none
  | ['0'] => some 0
  | c :: rest =>
      if c = '0' then none else digitsValAux (c :: rest) 0

/-- One-step property access `v[key]` on a data value: map field, sequence
index, and `undefined` (`none`) on scalars. -/
def lookup1 : JVal → String → Option JVal
  | .vobj _ kvs, k => findA kvs k
  | .varr _ xs, k =>
      match natKey k with
      | some i => xs.get? i
      | none => none
  | _, _ => none

/-- Split a character list at any delimiter in `delims`; consecutive
delimiters yield empty segments, as `String.split` on a single-character
non-greedy class. -/
def splitAux (delims : List Char) : List Char → List Char → List String
  | [], acc => [String.mk acc.reverse]
  | c :: rest, acc =>
      if delims.contains c then
        String.mk acc.reverse :: splitAux delims rest []
      else
        splitAux delims rest (c :: acc)

/-- Split a path on a delimiter set and drop empty segments, as
`split(regexp).filter(Boolean)` in the source `get`. -/
def segsOf (delims : List Char) (path : String) : List String :=
  (splitAux delims path.toList []).filter (fun t => !(t == ""))

/-- Primary delimiter set of the source `get`: `/[,[\]]+?/`. -/
def primDelims : List Char := [',', '[', ']']

/-- Secondary delimiter set of the source `get`: `/[,[\].]+?/`. -/
def secDelims : List Char := [',', '[', ']', '.']

/-- One reduction step of the source `travel`: carry `undefined` and `null`
through unchanged, otherwise access the property. -/
def travelStep (r : Option JVal) (key : String) : Option JVal :=
  match r with
  | none => none
  | some .vnull => some .vnull
  | some v => lookup1 v key

/-- The source `travel`: fold the segments over the root value. -/
def travel (t : JVal) (segs : List String) : Option JVal :=
  segs.foldl travelStep (some t)

/-- JavaScript truthiness of an (possibly `undefined`) value. -/
def isTruthy : Option JVal → Bool
  | none => false
  | some .vnull => false
  | some (.vbool b) => b
  | some (.vnum n) => !(n == 0)
  | some (.vstr s) => !(s == "")
  | some _ => true

/-- `travel(/[,[\]]+?/) || travel(/[,[\].]+?/)` of the source `get`: the
primary-split traversal, retried with the dot added to the delimiters when
the first result is falsy. -/
def combinedTravel (obj : JVal) (path : String) : Option JVal :=
  let r1 := travel obj (segsOf primDelims path)
  if isTruthy r1 then r1 else travel obj (segsOf secDelims path)

/-- The standalone `get(obj, path, defaultValue)` of `src/build/index.js`:
the combined traversal, then the default when the result is `undefined` or
the root object itself. The `===` root comparison is structural, which
agrees with reference equality here: a traversal result is the root only
when no segment consumed it. -/
def rawGet (obj : JVal) (path : String) (d : Option JVal) : Option JVal :=
  match combinedTravel obj path with
  | none => d
  | some v => if beqJ v obj then d else some v

/-- Size of a found value is below the size of the list it was found in. -/
theorem findA_sizeOf {l : List (String × JVal)} {k : String} {v : JVal}
    (h : findA l k = some v) : sizeOf v < sizeOf l := by
  induction l with
  | nil => simp [findA] at h
  | cons hd tl ih =>
      obtain ⟨k0, v0⟩ := hd
      simp only [findA] at h
      by_cases hk : k0 = k
      · simp [hk] at h
        subst h
        simp
        omega
      · simp [hk] at h
        have := ih h
        simp
        omega

mutual

/-- Modelled from the spec: the external merger (`createMerger({priority:
'right'})` from the smob dependency, whose code is not in the repository).
Merging two values: when both are maps, merge recursively key by key with the
right value winning; otherwise the right (higher-priority) value replaces the
left wholesale. The result is a fresh, unfrozen tree. -/
def merge2 : JVal → JVal → JVal
  | .vobj _ l1, .vobj _ l2 =>
      .vobj false (mergeKvs l1 l2 ++ l2.filter (fun q => (findA l1 q.1).isNone))
  | _, b => b
termination_by a b => sizeOf a + sizeOf b

/-- Modelled from the spec: entries of the left map, each merged with the
matching entry of the right map when present. -/
def mergeKvs : List (String × JVal) → List (String × JVal) →
    List (String × JVal)
  | [], _ => []
  | (k, v) :: rest, l2 =>
      (k, match h : findA l2 k with
          | none => v
          | some v2 => merge2 v v2) :: mergeKvs rest l2
termination_by l1 l2 => sizeOf l1 + sizeOf l2
decreasing_by
  all_goals simp_wf
  all_goals have hlt := findA_sizeOf h
  all_goals omega

end

/-- Modelled from the spec: `merge(...resolvedSources)` folds the sources
left to right with right priority; with no sources the result is empty. -/
def mergeList : List JVal → JVal
  | [] => .vobj false []
  | x :: xs => xs.foldl merge2 x

/-- `Object.isFrozen` on a data value: composites report their frozen bit,
primitives are always frozen. -/
def isFrozen : JVal → Bool
  | .vobj f _ => f
  | .varr f _ => f
  | _ => true

mutual

/-- The source `deepFreeze`: recurse into every object-typed value that is
not already frozen (already-frozen children are skipped), then freeze the
node itself. -/
def deepFreeze : JVal → JVal
  | .vobj _ l => .vobj true (dfKvs l)
  | .varr _ l => .varr true (dfList l)
  | v => v

/-- `deepFreeze` over the values of a sequence. -/
def dfList : List JVal → List JVal
  | [] => []
  | v :: rest => (if isFrozen v then v else deepFreeze v) :: dfList rest

/-- `deepFreeze` over the values of a map. -/
def dfKvs : List (String × JVal) → List (String × JVal)
  | [] => []
  | (k, v) :: rest => (k, if isFrozen v then v else deepFreeze v) :: dfKvs rest

end

mutual

/-- Every composite node reachable from the value is frozen. -/
def allFrozen : JVal → Bool
  | .vobj f l => f && afKvs l
  | .varr f l => f && afList l
  | _ => true

/-- `allFrozen` over sequence values. -/
def afList : List JVal → Bool
  | [] => true
  | v :: rest => allFrozen v && afList rest

/-- `allFrozen` over map values. -/
def afKvs : List (String × JVal) → Bool
  | [] => true
  | (_, v) :: rest => allFrozen v && afKvs rest

end

mutual

/-- Frozen-closed: every node that is already frozen has a fully frozen
subtree. This is the precondition under which the skip in `deepFreeze`
(frozen children are not descended into) cannot leave an unfrozen
descendant behind. Fresh decoder and merger output is frozen-closed because
it is unfrozen. -/
def frozenClosed : JVal → Bool
  | .vobj f l => (!f || (f && afKvs l)) && fcKvs l
  | .varr f l => (!f || (f && afList l)) && fcList l
  | _ => true

/-- `frozenClosed` over sequence values. -/
def fcList : List JVal → Bool
  | [] => true
  | v :: rest => frozenClosed v && fcList rest

/-- `frozenClosed` over map values. -/
def fcKvs : List (String × JVal) → Bool
  | [] => true
  | (_, v) :: rest => frozenClosed v && fcKvs rest

end

/-- A configuration source: a file path string, or an inline value. Inline
sources carry an identity tag modelling JavaScript object identity: two
inline sources are the same source exactly when their tags agree, regardless
of structural equality of their values. -/
inductive Source : Type where
  | file : String → Source
  | inline : Nat → JVal → Source

/-- The `===` comparison `indexOf` uses on the source list: strings by value,
objects by identity, and a string is never `===` an object. -/
def sameSource : Source → Source → Bool
  | .file a, .file b => a == b
  | .inline i _, .inline j _ => i == j
  | _, _ => false

/-- Load failure taxonomy: read failure, decode failure of a strict format,
unsupported extension. -/
inductive LoadErr : Type where
  | ioErr : String → LoadErr
  | decodeErr : String → LoadErr
  | unsupportedFormat : String → LoadErr
deriving Repr, DecidableEq

/-- External collaborators of one load pass: the byte-to-text file reader and
the per-format decoders, each an opaque text-to-tree function that may fail.
`js` models the whole dynamic-import path: evaluate the text and take the
default export, called when it is a function. -/
structure Env : Type where
  read : String → Except String String
  json : String → Except String JVal
  yaml : String → Except String JVal
  toml : String → Except String JVal
  js : String → Except String JVal

/-- `filePath.split('.').pop()`: the text after the last dot (the whole path
when it has no dot). -/
def extOf (p : String) : String :=
  (splitAux ['.'] p.toList []).getLastD ""

/-- `loadFromFile` of `src/build/index.js`: read the file (a read failure
propagates for every format), then decode by extension. JSON, YAML, YML and
TOML decode failures propagate; a script (`js`) decode failure is caught and
replaced by an empty object; any other extension is unsupported. -/
def loadFromFile (env : Env) (p : String) : Except LoadErr JVal :=
  match env.read p with
  | .error e => .error (.ioErr e)
  | .ok content =>
      let ext := extOf p
      if ext = "json" then
        match env.json content with
        | .ok v => .ok v
        | .error e => .error (.decodeErr e)
      else if ext = "yaml" then
        match env.yaml content with
        | .ok v => .ok v
        | .error e => .error (.decodeErr e)
      else if ext = "yml" then
        match env.yaml content with
        | .ok v => .ok v
        | .error e => .error (.decodeErr e)
      else if ext = "toml" then
        match env.toml content with
        | .ok v => .ok v
        | .error e => .error (.decodeErr e)
      else if ext = "js" then
        match env.js content with
        | .ok v => .ok v
        | .error _ => .ok (.vobj false [])
      else .error (.unsupportedFormat ext)

/-- Resolve one source: file sources are loaded from the file, inline sources
pass through as-is. -/
def resolveSource (env : Env) : Source → Except LoadErr JVal
  | .file p => loadFromFile env p
  | .inline _ v => .ok v

/-- `Promise.all` over the per-source resolutions: all values on full
success, the first failure otherwise. -/
def resolveAll (env : Env) : List Source → Except LoadErr (List JVal)
  | [] => .ok []
  | s :: rest =>
      match resolveSource env s with
      | .error e => .error e
      | .ok v =>
          match resolveAll env rest with
          | .error e => .error e
          | .ok vs => .ok (v :: vs)

/-- An in-flight load pass: the identity of the pending promise and the
snapshot of the source list taken when the pass started. -/
structure Pass : Type where
  pid : Nat
  snapshot : List Source

/-- State of one `Config` instance: the readiness flag, the published merged
tree, the in-flight marker (`loadConfigsPromise`), the source list, a counter
of fan-out passes started, and a fresh-promise counter. -/
structure CState : Type where
  ready : Bool
  mergedConfigs : JVal
  inflight : Option Pass
  sourcesL : List Source
  fanouts : Nat
  nextId : Nat

/-- `new Config(defaultConfig, ...sources)`: not ready, empty merged tree, no
pass in flight, sources in construction order. -/
def freshConfig (defaultConfig : Source) (srcs : List Source) : CState :=
  { ready := false
    mergedConfigs := .vobj false []
    inflight := none
    sourcesL := defaultConfig :: srcs
    fanouts := 0
    nextId := 0 }

/-- `loadConfigs()` up to its first suspension: return the in-flight promise
when one exists, otherwise start a fresh pass (snapshotting the sources and
issuing the fan-out) and store its promise. The returned `Nat` is the
identity of the promise handed to the caller. -/
def startLoad (s : CState) : CState × Nat :=
  match s.inflight with
  | some p => (s, p.pid)
  | none =>
      ({ s with
          inflight := some { pid := s.nextId, snapshot := s.sourcesL }
          fanouts := s.fanouts + 1
          nextId := s.nextId + 1 }, s.nextId)

/-- Settlement of the in-flight pass: on full resolution success, merge,
deep-freeze, set `ready`, and resolve; on any resolution failure, reject with
that failure and leave `ready` and `mergedConfigs` untouched. Either way the
in-flight marker is cleared (`finally`). Without a pass in flight the state
is unchanged. -/
def settle (env : Env) (s : CState) : CState × Except LoadErr Unit :=
  match s.inflight with
  | none => (s, .ok ())
  | some pass =>
      match resolveAll env pass.snapshot with
      | .ok vals =>
          ({ s with
              mergedConfigs := deepFreeze (mergeList vals)
              ready := true
              inflight := none }, .ok ())
      | .error e =>
          ({ s with inflight := none }, .error e)

/-- `Config.get(path, defaultValue)` of `src/build/index.js`: throw while not
ready; return the whole merged tree on a falsy (empty) path; otherwise defer
to the standalone `get`. -/
def cGet (s : CState) (path : String) (d : Option JVal) :
    Except Unit (Option JVal) :=
  if s.ready then
    if path = "" then .ok (some s.mergedConfigs)
    else .ok (rawGet s.mergedConfigs path d)
  else .error ()

/-- `addSource(...newSources)` up to its first suspension: append, then call
`loadConfigs` exactly when already ready. The boolean reports whether
`loadConfigs` was invoked. -/
def addSource (s : CState) (newSources : List Source) : CState × Bool :=
  let s1 := { s with sourcesL := s.sourcesL ++ newSources }
  if s1.ready then ((startLoad s1).1, true) else (s1, false)

/-- Remove the first `===`-matching element, as `indexOf` plus `splice`. -/
def removeFirst (src : Source) : List Source → List Source
  | [] => []
  | x :: rest => if sameSource x src then rest else x :: removeFirst src rest

/-- `removeSource(source)` up to its first suspension: drop the first exact
match when there is one (otherwise leave the list alone), then call
`loadConfigs` exactly when already ready. The boolean reports whether
`loadConfigs` was invoked. -/
def removeSource (s : CState) (src : Source) : CState × Bool :=
  let s1 := { s with sourcesL := removeFirst src s.sourcesL }
  if s1.ready then ((startLoad s1).1, true) else (s1, false)

/-- The process-wide singleton slot `Config._globalConfig`. -/
structure GState : Type where
  inst : Option CState

/-- Errors of the `Config.c` accessor. -/
inductive GlobalErr : Type where
  | notInitialized : GlobalErr
  | notReady : GlobalErr
deriving Repr, DecidableEq

/-- `Config.c`: throw when no global instance was ever installed, throw when
the installed instance is not ready, otherwise return it. -/
def globalC (g : GState) : Except GlobalErr CState :=
  match g.inst with
  | none => .error .notInitialized
  | some c => if c.ready then .ok c else .error .notReady

/-- `Config.init(defaultConfig, ...sources)`: construct a fresh instance,
install it as the global instance BEFORE awaiting its first load, then await
that load. The returned outcome is the one `init` propagates to its caller;
the global slot holds the new instance in either case. -/
def initG (prior : GState) (env : Env) (defaultConfig : Source)
    (srcs : List Source) : GState × Except LoadErr Unit :=
  let c0 := freshConfig defaultConfig srcs
  let c1 := (startLoad c0).1
  let (c2, r) := settle env c1
  ({ inst := some c2 }, r)

/-- N successive `loadConfigs()` calls with no settlement in between,
collecting the returned promise identities. -/
def callsN : Nat → CState → CState × List Nat
  | 0, s => (s, [])
  | n + 1, s =>
      let (s1, p) := startLoad s
      let (s2, ps) := callsN n s1
      (s2, p :: ps)

/-- A call while a pass is in flight changes nothing and returns the pending
promise, so any number of such calls replicate it. -/
theorem callsN_inflight (n : Nat) (s : CState) (pass : Pass)
    (h : s.inflight = some pass) :
    callsN n s = (s, List.replicate n pass.pid) := by
  induction n with
  | zero => simp [callsN]
  | succ n ih => simp [callsN, startLoad, h, ih, List.replicate]

/-- Fixture: an environment in which every file read fails. -/
def wEnvFail : Env :=
  { read := fun _ => .error "ENOENT", json := fun _ => .error "bad"
    yaml := fun _ => .error "bad", toml := fun _ => .error "bad"
    js := fun _ => .error "bad" }

/-- Fixture: an environment in which every read succeeds and every decoder
fails. -/
def wEnvFailDecode : Env :=
  { read := fun _ => .ok "text", json := fun _ => .error "bad"
    yaml := fun _ => .error "bad", toml := fun _ => .error "bad"
    js := fun _ => .error "bad" }

/-- Fixture: a ready instance with a published tree and a pass in flight. -/
def wReadyInflight : CState :=
  { ready := true, mergedConfigs := .vobj true [("a", .vnum 1)]
    inflight := some { pid := 3, snapshot := [.file "x.json"] }
    sourcesL := [.file "x.json"], fanouts := 1, nextId := 4 }

/-- Fixture: a ready instance with no pass in flight. -/
def wReady : CState :=
  { ready := true, mergedConfigs := .vobj true [("a", .vnum 1)]
    inflight := none
    sourcesL := [.inline 0 (.vobj false [("a", .vnum 1)])]
    fanouts := 1, nextId := 1 }

/-- C1: if any source resolution of the in-flight pass fails, the promise
returned by `loadConfigs()` rejects with that failure and the instance state
is unchanged: `mergedConfigs` still refers to the previously published tree,
the readiness flag keeps its prior value (so a failing reload leaves a ready
instance ready with its tree intact, and a failing first load leaves the
instance not ready), and no partial merge is published. -/
theorem load_failure_preserves_state (env : Env) (s : CState) (pass : Pass)
    (e : LoadErr) (hin : s.inflight = some pass)
    (hres : resolveAll env pass.snapshot = .error e) :
    (settle env s).2 = .error e ∧
    (settle env s).1.ready = s.ready ∧
    (settle env s).1.mergedConfigs = s.mergedConfigs := by
  simp [settle, hin, hres]

/-- Witness for C1: a concrete failing pass rejects and preserves a
previously published tree with `ready` still true. -/
theorem load_failure_preserves_state_witness :
    (settle wEnvFail wReadyInflight).2 = .error (.ioErr "ENOENT") ∧
    (settle wEnvFail wReadyInflight).1.ready = true ∧
    (settle wEnvFail wReadyInflight).1.mergedConfigs =
      .vobj true [("a", .vnum 1)] :=
  load_failure_preserves_state wEnvFail wReadyInflight
    { pid := 3, snapshot := [.file "x.json"] } (.ioErr "ENOENT") rfl rfl

/-- C3: `get` on an instance whose readiness flag is false throws for every
path and default (it never returns the default silently), and once the flag
is true `get` never throws for any path and default. -/
theorem get_readiness (s : CState) :
    (s.ready = false → ∀ p d, cGet s p d = .error ()) ∧
    (s.ready = true → ∀ p d, ∃ v, cGet s p d = .ok v) := by
  constructor
  · intro h p d
    simp [cGet, h]
  · intro h p d
    by_cases hp : p = ""
    · exact ⟨some s.mergedConfigs, by simp [cGet, h, hp]⟩
    · exact ⟨rawGet s.mergedConfigs p d, by simp [cGet, h, hp]⟩

/-- Witness for C3: a fresh not-ready instance throws on `get`, and a ready
instance answers. -/
theorem get_readiness_witness :
    cGet (freshConfig (.inline 0 (.vobj false [])) []) "a.b" (some (.vnum 1)) =
      .error () ∧
    ∃ v, cGet wReady "a.b" (some (.vnum 1)) = .ok v := by
  constructor
  · exact (get_readiness _).1 rfl "a.b" (some (.vnum 1))
  · exact (get_readiness _).2 rfl "a.b" (some (.vnum 1))

/-- C4: while a pass is in flight every further `loadConfigs()` call returns
the identical pending promise without touching the state, so N calls issued
before settlement observe one shared promise and exactly one fan-out; and
settlement (success or failure) clears the marker, so the next call starts a
fresh pass. -/
theorem single_flight :
    (∀ s pass, s.inflight = some pass → startLoad s = (s, pass.pid)) ∧
    (∀ s n, s.inflight = none →
      (callsN (n + 1) s).2 = List.replicate (n + 1) s.nextId ∧
      (callsN (n + 1) s).1.fanouts = s.fanouts + 1) ∧
    (∀ env s, (settle env s).1.inflight = none) ∧
    (∀ env s, ((startLoad (settle env s).1).1).fanouts =
      (settle env s).1.fanouts + 1) := by
  have hclear : ∀ env s, (settle env s).1.inflight = none := by
    intro env s
    rcases hin : s.inflight with _ | pass
    · simp [settle, hin]
    · rcases hres : resolveAll env pass.snapshot with e | vals <;>
        simp [settle, hin, hres]
  refine ⟨?_, ?_, hclear, ?_⟩
  · intro s pass h
    simp [startLoad, h]
  · intro s n h
    have hstep :
        startLoad s = ({ s with
          inflight := some { pid := s.nextId, snapshot := s.sourcesL },
          fanouts := s.fanouts + 1, nextId := s.nextId + 1 }, s.nextId) := by
      simp [startLoad, h]
    have hrest := callsN_inflight n
      ({ s with
          inflight := some { pid := s.nextId, snapshot := s.sourcesL },
          fanouts := s.fanouts + 1, nextId := s.nextId + 1 })
      { pid := s.nextId, snapshot := s.sourcesL } rfl
    constructor
    · simp [callsN, hstep, hrest, List.replicate]
    · simp [callsN, hstep, hrest]
  · intro env s
    simp [startLoad, hclear env s]

/-- Witness for C4: three concurrent calls on a fresh instance share one
promise and trigger one fan-out, and after a settlement the marker is clear. -/
theorem single_flight_witness :
    ((callsN 3 (freshConfig (.inline 0 (.vobj false [])) [])).2 =
      List.replicate 3 0 ∧
     (callsN 3 (freshConfig (.inline 0 (.vobj false [])) [])).1.fanouts = 1) ∧
    (settle wEnvFail wReadyInflight).1.inflight = none := by
  refine ⟨single_flight.2.1 (freshConfig (.inline 0 (.vobj false [])) []) 2 rfl,
    single_flight.2.2.1 wEnvFail wReadyInflight⟩

/-- C5: among file sources a script (`js`) decode failure is the sole
tolerated failure — it is replaced by an empty-object contribution so the
pass can continue — while a json/yaml/yml/toml decode failure propagates, and
a readable file with an unrecognized extension fails with
UnsupportedFormat. -/
theorem script_failure_tolerated (env : Env) (p content : String)
    (hread : env.read p = .ok content) :
    (extOf p = "js" → ∀ e, env.js content = .error e →
      loadFromFile env p = .ok (.vobj false [])) ∧
    (extOf p = "json" → ∀ e, env.json content = .error e →
      loadFromFile env p = .error (.decodeErr e)) ∧
    (extOf p = "yaml" → ∀ e, env.yaml content = .error e →
      loadFromFile env p = .error (.decodeErr e)) ∧
    (extOf p = "yml" → ∀ e, env.yaml content = .error e →
      loadFromFile env p = .error (.decodeErr e)) ∧
    (extOf p = "toml" → ∀ e, env.toml content = .error e →
      loadFromFile env p = .error (.decodeErr e)) ∧
    (extOf p ≠ "js" → extOf p ≠ "json" → extOf p ≠ "yaml" → extOf p ≠ "yml" →
      extOf p ≠ "toml" →
      loadFromFile env p = .error (.unsupportedFormat (extOf p))) := by
  refine ⟨?_, ?_, ?_, ?_, ?_, ?_⟩
  · intro hext e hjs
    simp [loadFromFile, hread, hext, hjs]
  · intro hext e hp
    simp [loadFromFile, hread, hext, hp]
  · intro hext e hp
    simp [loadFromFile, hread, hext, hp]
  · intro hext e hp
    simp [loadFromFile, hread, hext, hp]
  · intro hext e hp
    simp [loadFromFile, hread, hext, hp]
  · intro h1 h2 h3 h4 h5
    simp [loadFromFile, hread, h1, h2, h3, h4, h5]

/-- Witness for C5: a failing script source degrades to an empty object, a
failing json source propagates its decode error, and an `.ini` file is
unsupported. -/
theorem script_failure_tolerated_witness :
    loadFromFile wEnvFailDecode "cfg.js" = .ok (.vobj false []) ∧
    loadFromFile wEnvFailDecode "cfg.json" = .error (.decodeErr "bad") ∧
    loadFromFile wEnvFailDecode "cfg.ini" = .error (.unsupportedFormat "ini") := by
  have h1 := script_failure_tolerated wEnvFailDecode "cfg.js" "text" rfl
  have h2 := script_failure_tolerated wEnvFailDecode "cfg.json" "text" rfl
  have h3 := script_failure_tolerated wEnvFailDecode "cfg.ini" "text" rfl
  refine ⟨h1.1 (by decide) "bad" rfl, h2.2.1 (by decide) "bad" rfl,
    h3.2.2.2.2.2 (by decide) (by decide) (by decide) (by decide) (by decide)⟩

/-- C9: `removeSource` drops exactly the first `===` match of its argument —
a string matches a file source by string equality, an inline argument
matches by identity so a structurally equal but distinct inline value is
never removed — a non-matching removal is a state-preserving no-op, and the
call triggers `loadConfigs` if and only if the instance is already ready. -/
theorem remove_source_exact (s : CState) (src : Source) :
    ((removeSource s src).1.sourcesL = removeFirst src s.sourcesL) ∧
    ((removeSource s src).2 = s.ready) ∧
    (∀ l, (∀ x ∈ l, sameSource x src = false) → removeFirst src l = l) ∧
    (∀ p q, sameSource (.file p) (.file q) = true ↔ p = q) ∧
    (∀ i j v w, sameSource (.inline i v) (.inline j w) = true ↔ i = j) ∧
    (∀ p i v, sameSource (.file p) (.inline i v) = false) := by
  refine ⟨?_, ?_, ?_, ?_, ?_, ?_⟩
  · by_cases h : s.ready <;>
      cases hin : s.inflight <;> simp [removeSource, startLoad, h, hin]
  · by_cases h : s.ready <;> simp [removeSource, h]
  · intro l hl
    induction l with
    | nil => simp [removeFirst]
    | cons x rest ih =>
        have hx := hl x (by simp)
        simp [removeFirst, hx]
        exact ih (fun y hy => hl y (by simp [hy]))
  · intro p q
    simp [sameSource]
  · intro i j v w
    simp [sameSource]
  · intro p i v
    simp [sameSource]

/-- Witness for C9: removing a structurally equal but distinct inline value
from a ready instance keeps the list intact and reports the reload. -/
theorem remove_source_exact_witness :
    (removeSource wReady (.inline 1 (.vobj false [("a", .vnum 1)]))).1.sourcesL =
      removeFirst (.inline 1 (.vobj false [("a", .vnum 1)])) wReady.sourcesL ∧
    (removeSource wReady (.inline 1 (.vobj false [("a", .vnum 1)]))).2 = true ∧
    removeFirst (.inline 1 (.vobj false [("a", .vnum 1)])) wReady.sourcesL =
      wReady.sourcesL := by
  have h := remove_source_exact wReady (.inline 1 (.vobj false [("a", .vnum 1)]))
  refine ⟨h.1, h.2.1, h.2.2.1 wReady.sourcesL ?_⟩
  intro x hx
  simp [wReady] at hx
  simp [hx, sameSource]

/-- Fixture: an environment that never reads files (all sources inline). -/
def wEnvInline : Env :=
  { read := fun _ => .error "unused", json := fun _ => .error "unused"
    yaml := fun _ => .error "unused", toml := fun _ => .error "unused"
    js := fun _ => .error "unused" }

/-- Fixture: a first load in flight over one inline source. -/
def wInlineInflight : CState :=
  { ready := false, mergedConfigs := .vobj false []
    inflight := some { pid := 0
                       snapshot := [.inline 0 (.vobj false [("a", .vnum 1)])] }
    sourcesL := [.inline 0 (.vobj false [("a", .vnum 1)])]
    fanouts := 1, nextId := 1 }

/-- Is the value a map (a plain object)? -/
def isMap : JVal → Bool
  | .vobj _ _ => true
  | _ => false

/-- When either side is not a map, the merger replaces the left value with
the right one wholesale. -/
theorem merge2_replace (a b : JVal) (h : isMap a = false ∨ isMap b = false) :
    merge2 a b = b := by
  apply merge2.eq_2
  intro f1 l1 f2 l2 ha hb
  subst ha
  subst hb
  simp [isMap] at h

/-- Lookup distributes over list append, first list first. -/
theorem findA_append (a b : List (String × JVal)) (k : String) :
    findA (a ++ b) k =
      match findA a k with
      | some v => some v
      | none => findA b k := by
  induction a with
  | nil => simp [findA]
  | cons hd tl ih =>
      obtain ⟨k0, v0⟩ := hd
      by_cases hk : k0 = k <;> simp [findA, hk, ih]

/-- Lookup in a list filtered by a key-only predicate. -/
theorem findA_filter_key (l : List (String × JVal)) (p : String → Bool)
    (k : String) :
    findA (l.filter (fun q => p q.1)) k =
      if p k then findA l k else none := by
  induction l with
  | nil => simp [findA]
  | cons hd tl ih =>
      obtain ⟨k0, v0⟩ := hd
      by_cases hk : k0 = k
      · subst hk
        by_cases hp : p k0 <;> simp [findA, hp, ih]
      · by_cases hp : p k0 <;> simp [findA, hp, hk, ih]

/-- Lookup in the merged left entries: defined on the keys of the left map,
with the right value merged in when the right map also has the key. -/
theorem findA_mergeKvs (l1 l2 : List (String × JVal)) (k : String) :
    findA (mergeKvs l1 l2) k =
      match findA l1 k with
      | none => none
      | some v =>
          some (match findA l2 k with
                | none => v
                | some v2 => merge2 v v2) := by
  induction l1 with
  | nil => simp [mergeKvs, findA]
  | cons hd tl ih =>
      obtain ⟨k0, v0⟩ := hd
      by_cases hk : k0 = k
      · simp only [mergeKvs, findA, hk, if_pos rfl]
        cases hf : findA l2 k <;> simp [hf]
      · simp [mergeKvs, findA, hk, ih]

/-- Per-key content of a two-map merge: a key present in both maps gets the
recursive merge of the two values, a key present in one map keeps its value. -/
theorem merge2_lookup (f1 : Bool) (l1 : List (String × JVal)) (f2 : Bool)
    (l2 : List (String × JVal)) (k : String) :
    lookup1 (merge2 (.vobj f1 l1) (.vobj f2 l2)) k =
      match findA l1 k, findA l2 k with
      | some v1, some v2 => some (merge2 v1 v2)
      | some v1, none => some v1
      | none, r2 => r2 := by
  rw [merge2.eq_1]
  simp only [lookup1, findA_append, findA_mergeKvs,
    findA_filter_key l2 (fun key => (findA l1 key).isNone) k]
  rcases h1 : findA l1 k with _ | v1 <;> rcases h2 : findA l2 k with _ | v2 <;>
    simp [h1, h2]

/-- C2: in the merged result of a successful load, later (higher-priority)
sources win key conflicts; two competing maps merge recursively key by key;
when either competing value is a scalar or a sequence the higher-priority
value replaces the lower wholesale — sequences are never concatenated — and
the published tree is the fold of the resolved sources in order. Includes
the two spec examples: `{list:[1,2,3]}` then `{list:[9]}` gives `list ==
[9]`, and `{x:{p:1,q:1}}` then `{x:{q:2,r:2}}` gives `x == {p:1,q:2,r:2}`. -/
theorem merge_priority :
    (∀ f1 l1 f2 l2 k, lookup1 (merge2 (.vobj f1 l1) (.vobj f2 l2)) k =
      match findA l1 k, findA l2 k with
      | some v1, some v2 => some (merge2 v1 v2)
      | some v1, none => some v1
      | none, r2 => r2) ∧
    (∀ a b, isMap a = false ∨ isMap b = false → merge2 a b = b) ∧
    (∀ env s pass vals, s.inflight = some pass →
      resolveAll env pass.snapshot = .ok vals →
      (settle env s).1.mergedConfigs = deepFreeze (mergeList vals)) ∧
    (mergeList
      [.vobj false [("list", .varr false [.vnum 1, .vnum 2, .vnum 3])],
       .vobj false [("list", .varr false [.vnum 9])]] =
      .vobj false [("list", .varr false [.vnum 9])]) ∧
    (mergeList
      [.vobj false [("x", .vobj false [("p", .vnum 1), ("q", .vnum 1)])],
       .vobj false [("x", .vobj false [("q", .vnum 2), ("r", .vnum 2)])]] =
      .vobj false
        [("x", .vobj false [("p", .vnum 1), ("q", .vnum 2), ("r", .vnum 2)])]) := by
  refine ⟨merge2_lookup, merge2_replace, ?_, ?_, ?_⟩
  · intro env s pass vals hin hres
    simp [settle, hin, hres]
  · simp [mergeList, merge2, mergeKvs, findA]
  · simp [mergeList, merge2, mergeKvs, findA]

/-- Witness for C2: the merge rule instantiated on concrete inputs — a
same-key conflict of maps recurses, a sequence conflict replaces, and a
successful concrete load publishes the fold of its sources. -/
theorem merge_priority_witness :
    lookup1 (merge2 (.vobj false [("k", .varr false [.vnum 1])])
        (.vobj false [("k", .varr false [.vnum 9])])) "k" =
      some (.varr false [.vnum 9]) ∧
    merge2 (.varr false [.vnum 1, .vnum 2]) (.varr false [.vnum 9]) =
      .varr false [.vnum 9] ∧
    (settle wEnvInline wInlineInflight).1.mergedConfigs =
      deepFreeze (mergeList [.vobj false [("a", .vnum 1)]]) := by
  refine ⟨?_, ?_, ?_⟩
  · rw [merge_priority.1]
    simp [findA, merge2_replace, isMap]
  · exact merge_priority.2.1 _ _ (Or.inl rfl)
  · exact merge_priority.2.2.1 wEnvInline wInlineInflight
      { pid := 0, snapshot := [.inline 0 (.vobj false [("a", .vnum 1)])] }
      [.vobj false [("a", .vnum 1)]] rfl rfl

/-- An already-frozen frozen-closed value is entirely frozen. -/
theorem frozen_allFrozen (v : JVal) (hf : isFrozen v = true)
    (hc : frozenClosed v = true) : allFrozen v = true := by
  cases v with
  | varr f l =>
      simp [isFrozen] at hf
      subst hf
      simp [frozenClosed] at hc
      simp [allFrozen, hc.1]
  | vobj f l =>
      simp [isFrozen] at hf
      subst hf
      simp [frozenClosed] at hc
      simp [allFrozen, hc.1]
  | vnull => rfl
  | vbool b => rfl
  | vnum n => rfl
  | vstr str => rfl

mutual

/-- `deepFreeze` of a frozen-closed value leaves every reachable composite
node frozen: unfrozen children are recursed into, and children skipped for
being frozen already have fully frozen subtrees. -/
theorem df_allFrozen : (t : JVal) → frozenClosed t = true →
    allFrozen (deepFreeze t) = true
  | .vnull, _ => rfl
  | .vbool b, _ => rfl
  | .vnum n, _ => rfl
  | .vstr str, _ => rfl
  | .varr f l, h => by
      simp only [frozenClosed, Bool.and_eq_true] at h
      simp [deepFreeze, allFrozen, df_afList l h.2]
  | .vobj f l, h => by
      simp only [frozenClosed, Bool.and_eq_true] at h
      simp [deepFreeze, allFrozen, df_afKvs l h.2]

/-- `dfList` on frozen-closed values yields fully frozen values. -/
theorem df_afList : (l : List JVal) → fcList l = true →
    afList (dfList l) = true
  | [], _ => rfl
  | v :: rest, h => by
      simp only [fcList, Bool.and_eq_true] at h
      by_cases hf : isFrozen v
      · simp [dfList, hf, afList, frozen_allFrozen v hf h.1,
          df_afList rest h.2]
      · simp [dfList, hf, afList, df_allFrozen v h.1, df_afList rest h.2]

/-- `dfKvs` on frozen-closed values yields fully frozen values. -/
theorem df_afKvs : (l : List (String × JVal)) → fcKvs l = true →
    afKvs (dfKvs l) = true
  | [], _ => rfl
  | (k, v) :: rest, h => by
      simp only [fcKvs, Bool.and_eq_true] at h
      by_cases hf : isFrozen v
      · simp [dfKvs, hf, afKvs, frozen_allFrozen v hf h.1,
          df_afKvs rest h.2]
      · simp [dfKvs, hf, afKvs, df_allFrozen v h.1, df_afKvs rest h.2]

end

/-- A value found in a frozen-closed key-value list is frozen-closed. -/
theorem findA_fc (l : List (String × JVal)) (hl : fcKvs l = true)
    (k : String) (v : JVal) (h : findA l k = some v) :
    frozenClosed v = true := by
  induction l with
  | nil => simp [findA] at h
  | cons hd tl ih =>
      obtain ⟨k0, v0⟩ := hd
      simp only [fcKvs, Bool.and_eq_true] at hl
      simp only [findA] at h
      by_cases hk : k0 = k
      · simp [hk] at h
        exact h ▸ hl.1
      · simp [hk] at h
        exact ih hl.2 h

/-- `fcKvs` distributes over append. -/
theorem fcKvs_append (a b : List (String × JVal)) :
    fcKvs (a ++ b) = (fcKvs a && fcKvs b) := by
  induction a with
  | nil => simp [fcKvs]
  | cons hd tl ih =>
      obtain ⟨k0, v0⟩ := hd
      simp [fcKvs, ih, Bool.and_assoc]

/-- A filtered frozen-closed key-value list stays frozen-closed. -/
theorem fcKvs_filter (l : List (String × JVal))
    (p : String × JVal → Bool) (hl : fcKvs l = true) :
    fcKvs (l.filter p) = true := by
  induction l with
  | nil => simp [fcKvs]
  | cons hd tl ih =>
      obtain ⟨k0, v0⟩ := hd
      simp only [fcKvs, Bool.and_eq_true] at hl
      by_cases hp : p (k0, v0) <;>
        simp [List.filter, hp, fcKvs, hl.1, ih hl.2]

/-- The merger preserves frozen-closedness, on values and on entry lists
simultaneously (output nodes are fresh and unfrozen; copied subtrees come
from the inputs). -/
theorem merges_fc :
    (∀ a b, frozenClosed a = true → frozenClosed b = true →
      frozenClosed (merge2 a b) = true) ∧
    (∀ l1 l2, fcKvs l1 = true → fcKvs l2 = true →
      fcKvs (mergeKvs l1 l2) = true) := by
  have case1 : ∀ (f1 : Bool) (l1 : List (String × JVal)) (f2 : Bool)
      (l2 : List (String × JVal)),
      (fcKvs l1 = true → fcKvs l2 = true → fcKvs (mergeKvs l1 l2) = true) →
      (frozenClosed (.vobj f1 l1) = true → frozenClosed (.vobj f2 l2) = true →
        frozenClosed (merge2 (.vobj f1 l1) (.vobj f2 l2)) = true) := by
    intro f1 l1 f2 l2 ih h1 h2
    simp only [frozenClosed, Bool.and_eq_true] at h1 h2
    rw [merge2.eq_1]
    simp only [frozenClosed, fcKvs_append, Bool.not_false, Bool.true_or,
      Bool.true_and, Bool.and_eq_true]
    exact ⟨ih h1.2 h2.2, fcKvs_filter l2 _ h2.2⟩
  have case2 : ∀ (x b : JVal),
      (∀ (f1 : Bool) (l1 : List (String × JVal)) (f2 : Bool)
        (l2 : List (String × JVal)),
        x = .vobj f1 l1 → b = .vobj f2 l2 → False) →
      (frozenClosed x = true → frozenClosed b = true →
        frozenClosed (merge2 x b) = true) := by
    intro x b hno h1 h2
    rw [merge2.eq_2 x b hno]
    exact h2
  have case3 : ∀ (l2 : List (String × JVal)),
      fcKvs ([] : List (String × JVal)) = true → fcKvs l2 = true →
      fcKvs (mergeKvs [] l2) = true := by
    intro l2 _ _
    simp [mergeKvs, fcKvs]
  have case4 : ∀ (k : String) (v : JVal) (rest l2 : List (String × JVal)),
      (∀ v2, findA l2 k = some v2 →
        frozenClosed v = true → frozenClosed v2 = true →
        frozenClosed (merge2 v v2) = true) →
      (fcKvs rest = true → fcKvs l2 = true →
        fcKvs (mergeKvs rest l2) = true) →
      (fcKvs ((k, v) :: rest) = true → fcKvs l2 = true →
        fcKvs (mergeKvs ((k, v) :: rest) l2) = true) := by
    intro k v rest l2 ihv ihrest h1 h2
    simp only [fcKvs, Bool.and_eq_true] at h1
    simp only [mergeKvs, fcKvs, Bool.and_eq_true]
    constructor
    · cases hf : findA l2 k with
      | none => simpa [hf] using h1.1
      | some v2 =>
          simpa [hf] using ihv v2 hf h1.1 (findA_fc l2 h2 k v2 hf)
    · exact ihrest h1.2 h2
  constructor
  · exact merge2.induct
      (fun a b => frozenClosed a = true → frozenClosed b = true →
        frozenClosed (merge2 a b) = true)
      (fun l1 l2 => fcKvs l1 = true → fcKvs l2 = true →
        fcKvs (mergeKvs l1 l2) = true)
      case1 case2 case3 case4
  · exact mergeKvs.induct
      (fun a b => frozenClosed a = true → frozenClosed b = true →
        frozenClosed (merge2 a b) = true)
      (fun l1 l2 => fcKvs l1 = true → fcKvs l2 = true →
        fcKvs (mergeKvs l1 l2) = true)
      case1 case2 case3 case4

/-- Folding the merger over frozen-closed values stays frozen-closed. -/
theorem foldl_merge2_fc (xs : List JVal) :
    ∀ acc, frozenClosed acc = true → (∀ v ∈ xs, frozenClosed v = true) →
      frozenClosed (xs.foldl merge2 acc) = true := by
  induction xs with
  | nil =>
      intro acc hacc _
      simpa using hacc
  | cons x rest ih =>
      intro acc hacc hxs
      simp only [List.foldl_cons]
      exact ih (merge2 acc x)
        (merges_fc.1 acc x hacc (hxs x (by simp)))
        (fun v hv => hxs v (by simp [hv]))

/-- The fold of frozen-closed sources is frozen-closed. -/
theorem mergeList_fc (vs : List JVal)
    (h : ∀ v ∈ vs, frozenClosed v = true) :
    frozenClosed (mergeList vs) = true := by
  cases vs with
  | nil => rfl
  | cons x rest =>
      exact foldl_merge2_fc rest x (h x (by simp))
        (fun v hv => h v (by simp [hv]))

/-- C8: every successful `loadConfigs()` publishes a brand-new merged tree —
the deep-freeze image of the fold of the freshly resolved sources, not a
modification of the prior tree — with every reachable composite node frozen,
in the same step that sets the readiness flag and resolves the promise; and
no operation of the class ever writes into a published tree afterwards:
`loadConfigs`, `addSource`, `removeSource` and a failing settlement all
leave `mergedConfigs` untouched, and a reload replaces it wholesale. -/
theorem deep_freeze_published :
    (∀ env s pass vals, s.inflight = some pass →
      resolveAll env pass.snapshot = .ok vals →
      (∀ v ∈ vals, frozenClosed v = true) →
      (settle env s).1.mergedConfigs = deepFreeze (mergeList vals) ∧
      (settle env s).1.ready = true ∧
      allFrozen ((settle env s).1.mergedConfigs) = true) ∧
    (∀ t, frozenClosed t = true → allFrozen (deepFreeze t) = true) ∧
    (∀ s, (startLoad s).1.mergedConfigs = s.mergedConfigs) ∧
    (∀ s ns, (addSource s ns).1.mergedConfigs = s.mergedConfigs) ∧
    (∀ s src, (removeSource s src).1.mergedConfigs = s.mergedConfigs) ∧
    (∀ env s pass e, s.inflight = some pass →
      resolveAll env pass.snapshot = .error e →
      (settle env s).1.mergedConfigs = s.mergedConfigs) := by
  refine ⟨?_, df_allFrozen, ?_, ?_, ?_, ?_⟩
  · intro env s pass vals hin hres hfc
    refine ⟨by simp [settle, hin, hres], by simp [settle, hin, hres], ?_⟩
    have hpub : (settle env s).1.mergedConfigs = deepFreeze (mergeList vals) :=
      by simp [settle, hin, hres]
    rw [hpub]
    exact df_allFrozen (mergeList vals) (mergeList_fc vals hfc)
  · intro s
    cases hin : s.inflight <;> simp [startLoad, hin]
  · intro s ns
    by_cases h : s.ready <;>
      cases hin : s.inflight <;> simp [addSource, startLoad, h, hin]
  · intro s src
    by_cases h : s.ready <;>
      cases hin : s.inflight <;> simp [removeSource, startLoad, h, hin]
  · intro env s pass e hin hres
    simp [settle, hin, hres]

/-- Witness for C8: a concrete successful first load over one inline source
publishes a fully frozen tree and sets readiness. -/
theorem deep_freeze_published_witness :
    (settle wEnvInline wInlineInflight).1.mergedConfigs =
      deepFreeze (mergeList [.vobj false [("a", .vnum 1)]]) ∧
    (settle wEnvInline wInlineInflight).1.ready = true ∧
    allFrozen ((settle wEnvInline wInlineInflight).1.mergedConfigs) = true := by
  exact deep_freeze_published.1 wEnvInline wInlineInflight
    { pid := 0, snapshot := [.inline 0 (.vobj false [("a", .vnum 1)])] }
    [.vobj false [("a", .vnum 1)]] rfl rfl
    (by
      intro v hv
      simp at hv
      subst hv
      simp [frozenClosed, fcKvs])

/-- Fixture: a ready instance whose published tree maps `a` to null. -/
def wNullTree : CState :=
  { ready := true, mergedConfigs := .vobj true [("a", .vnull)]
    inflight := none, sourcesL := [], fanouts := 1, nextId := 1 }

/-- Fixture: a ready instance whose published tree nests an array under
`a.b` with an object at index 1, and has no dotted keys. -/
def wNested : CState :=
  { ready := true
    mergedConfigs :=
      .vobj true [("a", .vobj true
        [("b", .varr true [.vnum 5, .vobj true [("c", .vstr "hit")]])])]
    inflight := none, sourcesL := [], fanouts := 1, nextId := 1 }

/-- C6 counterexample: on the tree `{a: null}` the traversal of `a.b`
short-circuits at the null intermediate, but `get` returns that null rather
than the supplied default `42`, contradicting the claim that the default is
returned whenever traversal fails. -/
theorem get_null_not_default :
    cGet wNullTree "a.b" (some (.vnum 42)) = .ok (some .vnull) ∧
    cGet wNullTree "a.b" (some (.vnum 42)) ≠ .ok (some (.vnum 42)) := by
  constructor
  · rfl
  · intro hcontra
    rw [show cGet wNullTree "a.b" (some (.vnum 42)) = .ok (some .vnull) from rfl]
      at hcontra
    simp at hcontra

/-- C6 amended: on a ready instance `get` never throws; the empty path
returns the merged tree itself (not the default); for a nonempty path the
result is the standalone `get`, which returns the default exactly when the
combined traversal yields `undefined` or a value identical to the root —
while a null intermediate short-circuits the traversal to null, which is
returned as null rather than replaced by the default. -/
theorem get_default_characterization (s : CState) (path : String)
    (d : Option JVal) (h : s.ready = true) :
    (cGet s "" d = .ok (some s.mergedConfigs)) ∧
    (path ≠ "" → cGet s path d = .ok (rawGet s.mergedConfigs path d)) ∧
    (path ≠ "" → combinedTravel s.mergedConfigs path = none →
      cGet s path d = .ok d) ∧
    (path ≠ "" → ∀ v, combinedTravel s.mergedConfigs path = some v →
      beqJ v s.mergedConfigs = true → cGet s path d = .ok d) ∧
    (path ≠ "" → ∀ v, combinedTravel s.mergedConfigs path = some v →
      beqJ v s.mergedConfigs = false → cGet s path d = .ok (some v)) ∧
    (path ≠ "" → ∀ f l, s.mergedConfigs = .vobj f l →
      combinedTravel s.mergedConfigs path = some .vnull →
      cGet s path d = .ok (some .vnull)) := by
  refine ⟨?_, ?_, ?_, ?_, ?_, ?_⟩
  · simp [cGet, h]
  · intro hp
    simp [cGet, h, hp]
  · intro hp ht
    simp [cGet, h, hp, rawGet, ht]
  · intro hp v ht hb
    simp [cGet, h, hp, rawGet, ht, hb]
  · intro hp v ht hb
    simp [cGet, h, hp, rawGet, ht, hb]
  · intro hp f l hroot ht
    have hb : beqJ .vnull s.mergedConfigs = false := by rw [hroot]; rfl
    simp [cGet, h, hp, rawGet, ht, hb]

/-- Witness for C6 amended: the empty path returns the tree, an absent path
returns the default, and a present path returns the stored value. -/
theorem get_default_characterization_witness :
    cGet wReady "" (some (.vnum 99)) = .ok (some wReady.mergedConfigs) ∧
    cGet wReady "zz" (some (.vnum 99)) = .ok (some (.vnum 99)) ∧
    cGet wReady "a" (some (.vnum 99)) = .ok (some (.vnum 1)) := by
  refine ⟨(get_default_characterization wReady "" (some (.vnum 99)) rfl).1,
    (get_default_characterization wReady "zz" (some (.vnum 99)) rfl).2.2.1
      (by simp) rfl,
    (get_default_characterization wReady "a" (some (.vnum 99)) rfl).2.2.2.2.1
      (by simp) (.vnum 1) rfl rfl⟩

/-- Fixture: a ready instance whose published tree has a literal dotted key
`a.b`. -/
def wDottedKeyTree : CState :=
  { ready := true
    mergedConfigs :=
      .vobj true [("a.b", .vobj true [("1", .vobj true [(".c", .vnum 7)])])]
    inflight := none, sourcesL := [], fanouts := 1, nextId := 1 }

/-- C7 counterexample: on a tree with the literal key `a.b`, the primary
split of `a.b[1].c` resolves the dotted text as a literal key and finds 7,
while `a,b,1,c` misses and returns the default 0 — the two notations are not
equivalent on every tree. -/
theorem path_notation_not_equiv :
    cGet wDottedKeyTree "a.b[1].c" (some (.vnum 0)) = .ok (some (.vnum 7)) ∧
    cGet wDottedKeyTree "a,b,1,c" (some (.vnum 0)) = .ok (some (.vnum 0)) ∧
    cGet wDottedKeyTree "a.b[1].c" (some (.vnum 0)) ≠
      cGet wDottedKeyTree "a,b,1,c" (some (.vnum 0)) := by
  refine ⟨rfl, rfl, ?_⟩
  intro hcontra
  rw [show cGet wDottedKeyTree "a.b[1].c" (some (.vnum 0)) =
        .ok (some (.vnum 7)) from rfl,
      show cGet wDottedKeyTree "a,b,1,c" (some (.vnum 0)) =
        .ok (some (.vnum 0)) from rfl] at hcontra
  simp at hcontra

/-- The two notations agree whenever the root has no literal `a.b` key:
the primary split of the dotted path then dead-ends at once, both sides
collapse to the same dot-split traversal. -/
theorem rawGet_dual_split (t : JVal) (d : Option JVal)
    (h : lookup1 t "a.b" = none) :
    rawGet t "a.b[1].c" d = rawGet t "a,b,1,c" d := by
  have e1 : segsOf primDelims "a.b[1].c" = ["a.b", "1", ".c"] := rfl
  have e2 : segsOf secDelims "a.b[1].c" = ["a", "b", "1", "c"] := rfl
  have e3 : segsOf primDelims "a,b,1,c" = ["a", "b", "1", "c"] := rfl
  have e4 : segsOf secDelims "a,b,1,c" = ["a", "b", "1", "c"] := rfl
  cases t with
  | vnull => rfl
  | vbool b => rfl
  | vnum n => rfl
  | vstr str => rfl
  | varr f l =>
      simp only [rawGet, combinedTravel, e1, e2, e3, e4, travel,
        List.foldl_cons, List.foldl_nil, travelStep]
      simp only [show lookup1 (.varr f l) "a.b" = none from rfl,
        show lookup1 (.varr f l) "a" = none from rfl, isTruthy]
  | vobj f l =>
      simp only [rawGet, combinedTravel, e1, e2, e3, e4, travel,
        List.foldl_cons, List.foldl_nil, travelStep, h, isTruthy]
      cases htr : travelStep (lookup1 (.vobj f l) "a") "b" with
      | none => simp [travelStep, isTruthy]
      | some v =>
          cases hv : isTruthy (travelStep (travelStep (some v) "1") "c") <;>
            simp [travelStep, isTruthy, hv]

/-- C7 amended: `get('a.b[1].c', default)` and `get('a,b,1,c', default)`
return identical results on every ready instance whose merged tree has no
literal `a.b` key at the root (the situation the parsing rule presumes: the
primary split finds no dotted literal field, so both notations re-split to
the same segments). -/
theorem path_notation_equiv (s : CState) (d : Option JVal)
    (h : s.ready = true) (hkey : lookup1 s.mergedConfigs "a.b" = none) :
    cGet s "a.b[1].c" d = cGet s "a,b,1,c" d := by
  simp only [cGet, h, if_true]
  simp only [show ("a.b[1].c" = "") = False by simp,
    show ("a,b,1,c" = "") = False by simp, if_false]
  exact congrArg Except.ok (rawGet_dual_split s.mergedConfigs d hkey)

/-- Witness for C7 amended: on a dot-key-free tree both notations find the
same nested element. -/
theorem path_notation_equiv_witness :
    cGet wNested "a.b[1].c" (some (.vnum 0)) =
      cGet wNested "a,b,1,c" (some (.vnum 0)) :=
  path_notation_equiv wNested (some (.vnum 0)) rfl rfl

/-- C10: `Config.init` installs the fresh instance as the global singleton
before awaiting its first load, so when that load fails, `init` rejects but
the global slot already holds the new not-ready instance, and a subsequent
`Config.c` fails with NotReady even though a ready global instance existed
before the call — global re-initialization is not atomic on failure. -/
theorem init_not_atomic (prior : GState) (env : Env) (dc : Source)
    (srcs : List Source) (e : LoadErr) (cPrev : CState)
    (hPrev : prior.inst = some cPrev) (hReady : cPrev.ready = true)
    (hres : resolveAll env (dc :: srcs) = .error e) :
    (initG prior env dc srcs).2 = .error e ∧
    globalC (initG prior env dc srcs).1 = .error .notReady := by
  constructor
  · simp [initG, freshConfig, startLoad, settle, hres]
  · simp [initG, freshConfig, startLoad, settle, hres, globalC]

/-- Witness for C10: re-initializing over a ready global with a failing load
leaves `Config.c` throwing NotReady. -/
theorem init_not_atomic_witness :
    (initG { inst := some wReady } wEnvFail (.file "x.json") []).2 =
      .error (.ioErr "ENOENT") ∧
    globalC (initG { inst := some wReady } wEnvFail (.file "x.json") []).1 =
      .error .notReady :=
  init_not_atomic { inst := some wReady } wEnvFail (.file "x.json") []
    (.ioErr "ENOENT") wReady rfl rfl rfl

end RocketConfig
